import Mathlib

set_option maxRecDepth 8192

/-!
Shallow embedding of the live-split-hotkeys sources (`src/key.rs` and
`src/main.rs`) together with proofs about the hotkey engine, the key-name
resolver and the device-event filter.  The repository holds two revisions
of the same engine: the one in `main.rs` (the binary crate root, toggle
combo evaluated first) and the one in `key.rs` (a module revision whose
enum-map iteration puts the toggle combo last).  Both are embedded, in the
namespaces `MainRs` and `KeyRs` respectively.
-/

namespace LiveSplitHotkeys

/-- Models Rust `str::trim` on the character list of a string: drop leading
and trailing whitespace (all names involved are ASCII). -/
def trimChars (l : List Char) : List Char :=
  ((l.dropWhile Char.isWhitespace).reverse.dropWhile Char.isWhitespace).reverse

/-- Models Rust `str::trim` as used by `Keymapper::map_combo`. -/
def strTrim (s : String) : String := ⟨trimChars s.data⟩

/-- Models Rust `str::to_uppercase` as used by `Keymapper::map` (the key
names involved are ASCII, where the two agree). -/
def strToUpper (s : String) : String := ⟨s.data.map Char.toUpper⟩

/-- Worker for `splitComma`: splits a character list at every comma,
keeping empty pieces, like Rust `str::split(',')`. -/
def splitCommaGo : List Char → List Char → List String
  | [], acc => [⟨acc.reverse⟩]
  | c :: rest, acc =>
    if c = ',' then ⟨acc.reverse⟩ :: splitCommaGo rest []
    else splitCommaGo rest (c :: acc)

/-- Models `combo.split(',')` from `Keymapper::map_combo`. -/
def splitComma (s : String) : List String := splitCommaGo s.data []

/-- Modelled from the spec: the canonical code table (the `KEY` map of the
`input_event_codes_hashmap` crate, generated from the Linux header
`input-event-codes.h`) is an external dependency, not part of `src/`.
This list holds the subset of entries the claims touch: the whole main
keyboard block, every entry named as an alias target by `Keymapper::new`,
and the sentinel entry `MAX` (`KEY_MAX = 0x2ff = 767`), which is the
largest value in the real table and therefore determines its maximum. -/
def KEY : List (String × Nat) := [
  ("ESC", 1), ("1", 2), ("2", 3), ("3", 4), ("4", 5), ("5", 6), ("6", 7),
  ("7", 8), ("8", 9), ("9", 10), ("0", 11), ("MINUS", 12), ("EQUAL", 13),
  ("BACKSPACE", 14), ("TAB", 15), ("Q", 16), ("W", 17), ("E", 18),
  ("R", 19), ("T", 20), ("Y", 21), ("U", 22), ("I", 23), ("O", 24),
  ("P", 25), ("LEFTBRACE", 26), ("RIGHTBRACE", 27), ("ENTER", 28),
  ("LEFTCTRL", 29), ("A", 30), ("S", 31), ("D", 32), ("F", 33), ("G", 34),
  ("H", 35), ("J", 36), ("K", 37), ("L", 38), ("SEMICOLON", 39),
  ("APOSTROPHE", 40), ("GRAVE", 41), ("LEFTSHIFT", 42), ("BACKSLASH", 43),
  ("Z", 44), ("X", 45), ("C", 46), ("V", 47), ("B", 48), ("N", 49),
  ("M", 50), ("COMMA", 51), ("DOT", 52), ("SLASH", 53), ("RIGHTSHIFT", 54),
  ("KPASTERISK", 55), ("LEFTALT", 56), ("SPACE", 57), ("CAPSLOCK", 58),
  ("F1", 59), ("F2", 60), ("F3", 61), ("F4", 62), ("F5", 63), ("F6", 64),
  ("F7", 65), ("F8", 66), ("F9", 67), ("F10", 68), ("NUMLOCK", 69),
  ("SCROLLLOCK", 70), ("KP7", 71), ("KP8", 72), ("KP9", 73),
  ("KPMINUS", 74), ("KP4", 75), ("KP5", 76), ("KP6", 77), ("KPPLUS", 78),
  ("KP1", 79), ("KP2", 80), ("KP3", 81), ("KP0", 82), ("KPDOT", 83),
  ("F11", 87), ("F12", 88), ("KPENTER", 96), ("RIGHTCTRL", 97),
  ("KPSLASH", 98), ("RIGHTALT", 100), ("HOME", 102), ("UP", 103),
  ("PAGEUP", 104), ("LEFT", 105), ("RIGHT", 106), ("END", 107),
  ("DOWN", 108), ("PAGEDOWN", 109), ("INSERT", 110), ("DELETE", 111),
  ("PAUSE", 119), ("LEFTMETA", 125), ("RIGHTMETA", 126), ("CLEAR", 355),
  ("MAX", 767)]

/-- Models `KEY.iter().map(|(_, code)| *code).max()` from `KeyState::new`
(identical at `src/key.rs` line 192 and `src/main.rs` line 240). -/
def num_keys? : Option Nat := (KEY.map Prod.snd).max?

/-- Models the `.unwrap() as usize` applied to the maximum; the table is
non-empty, so the unwrap succeeds.  The press-state vector is allocated as
`vec![false; num_keys]`, so its valid indices are `0 .. num_keys - 1`. -/
def num_keys : Nat := num_keys?.getD 0

namespace Keymapper

/-- The static alias table built by `Keymapper::new` (identical at
`src/key.rs` lines 26-83 and `src/main.rs` lines 98-155), written as an
association list; the Rust `HashMap` has the same, pairwise distinct,
keys, so lookup agrees. -/
def key_map : List (String × String) := [
  ("Control", "LEFTCTRL"),
  ("ControlKey", "LEFTCTRL"),
  ("LControlKey", "LEFTCTRL"),
  ("Alt", "LEFTALT"),
  ("LMenu", "LEFTALT"),
  ("Back", "BACKSPACE"),
  ("Capital", "CAPSLOCK"),
  ("Escape", "ESC"),
  ("LShiftKey", "LEFTSHIFT"),
  ("Shift", "LEFTSHIFT"),
  ("ShiftKey", "LEFTSHIFT"),
  ("LWin", "LEFTMETA"),
  ("Next", "PAGEDOWN"),
  ("Prior", "PAGEUP"),
  ("D0", "0"),
  ("D1", "1"),
  ("D2", "2"),
  ("D3", "3"),
  ("D4", "4"),
  ("D5", "5"),
  ("D6", "6"),
  ("D7", "7"),
  ("D8", "8"),
  ("D9", "9"),
  ("NumPad0", "KP0"),
  ("NumPad1", "KP1"),
  ("NumPad2", "KP2"),
  ("NumPad3", "KP3"),
  ("NumPad4", "KP4"),
  ("NumPad5", "KP5"),
  ("NumPad6", "KP6"),
  ("NumPad7", "KP7"),
  ("NumPad8", "KP8"),
  ("NumPad9", "KP9"),
  ("OemBackslash", "BACKSLASH"),
  ("OemClear", "CLEAR"),
  ("OemCloseBrackets", "RIGHTBRACE"),
  ("Oemcomma", "COMMA"),
  ("OemMinus", "MINUS"),
  ("OemOpenBrackets", "LEFTBRACE"),
  ("OemPeriod", "DOT"),
  ("OemPipe", "BACKSLASH"),
  ("Oemplus", "EQUAL"),
  ("OemQuestion", "SLASH"),
  ("OemQuotes", "APOSTROPHE"),
  ("OemSemicolon", "SEMICOLON"),
  ("Oemtilde", "GRAVE"),
  ("RControlKey", "RIGHTCTRL"),
  ("Return", "ENTER"),
  ("RShiftKey", "RIGHTSHIFT"),
  ("RWin", "RIGHTMETA"),
  ("Scroll", "SCROLLLOCK")]

/-- Models `Keymapper::map` (`src/key.rs` lines 85-92, `src/main.rs`
lines 157-164): first the alias table is consulted with the name exactly
as written; on a hit the alias target is looked up in the canonical table,
otherwise the upper-cased name is looked up there directly. -/
def map (name : String) : Option Nat :=
  match key_map.lookup name with
  | some mapped_name => KEY.lookup mapped_name
  | none => KEY.lookup (strToUpper name)

/-- The loop of `Keymapper::map_combo` over the comma-separated pieces:
trim each piece, resolve it with `map`, collect the codes in order, and on
the first piece that does not resolve return the error carrying the
trimmed piece and the whole combo text (as the Rust error message does). -/
def mapComboGo (combo : String) : List String → Except (String × String) (List Nat)
  | [] => Except.ok []
  | k :: rest =>
    match map (strTrim k) with
    | some code =>
      match mapComboGo combo rest with
      | Except.ok v => Except.ok (code :: v)
      | Except.error e => Except.error e
    | none => Except.error (strTrim k, combo)

/-- Models `Keymapper::map_combo` (`src/key.rs` lines 94-110,
`src/main.rs` lines 166-178). -/
def map_combo (combo : String) : Except (String × String) (List Nat) :=
  mapComboGo combo (splitComma combo)

end Keymapper

/-- The body shared by both revisions of `KeyState::check_hotkey`
(`src/key.rs` lines 201-203, `src/main.rs` lines 251-253): a combo is
active on a transition for `key` iff `key` is one of its members and every
member currently reads true in the press state.  Out-of-range reads panic
in Rust; here they read `false`, and every theorem that depends on a read
keeps the index in range. -/
def check_combo (state : List Bool) (key : Nat) (hotkey : List Nat) : Bool :=
  hotkey.any (fun c => c == key) && hotkey.all (fun c => state.getD c false)

namespace KeyRs

/-- The hotkey kinds of `src/key.rs` lines 10-18, in declaration order. -/
inductive Hotkey
  | SplitKey
  | ResetKey
  | SkipKey
  | UndoKey
  | PauseKey
  | ToggleGlobalHotkeys
deriving DecidableEq

/-- The order in which `EnumMap<Hotkey, _>` iterates: the declaration
order of the `Hotkey` enum, with `ToggleGlobalHotkeys` last. -/
def hotkeyOrder : List Hotkey :=
  [.SplitKey, .ResetKey, .SkipKey, .UndoKey, .PauseKey, .ToggleGlobalHotkeys]

/-- The engine state of `src/key.rs` lines 120-125.  The `EnumMap` of
combos is a total function on `Hotkey`; a kind with no configured combo
holds `[]` (the `EnumMap` default), which never activates. -/
structure KeyState where
  state : List Bool
  hotkeys : Hotkey → List Nat
  hotkeys_enabled : Bool

/-- Models `KeyState::check_hotkey` of `src/key.rs` lines 201-203. -/
def KeyState.check_hotkey (s : KeyState) (key : Nat) (hotkey : List Nat) : Bool :=
  check_combo s.state key hotkey

/-- The `for (hotkey, combo) in &self.hotkeys` loop of
`KeyState::handle_key` (`src/key.rs` lines 209-223), with the early
`return EnumMap::default()` of the disable branch modelled by stopping
with the all-false result. -/
def handleKeyLoop (key : Nat) :
    KeyState → List Hotkey → (Hotkey → Bool) → KeyState × (Hotkey → Bool)
  | s, [], result => (s, result)
  | s, hk :: rest, result =>
    let is_active := s.check_hotkey key (s.hotkeys hk)
    let s' := if is_active ∧ hk = Hotkey.ToggleGlobalHotkeys
              then { s with hotkeys_enabled := !s.hotkeys_enabled } else s
    if is_active ∧ hk = Hotkey.ToggleGlobalHotkeys ∧ ¬ s'.hotkeys_enabled then
      (s', fun _ => false)
    else if ¬ s'.hotkeys_enabled then
      handleKeyLoop key s' rest result
    else
      handleKeyLoop key s' rest (fun h => if h = hk then is_active else result h)

/-- Models `KeyState::handle_key` of `src/key.rs` lines 205-226: write the
transition into the press state, then run the loop over all kinds in enum
order starting from the all-false result map. -/
def KeyState.handle_key (s : KeyState) (key : Nat) (is_pressed : Bool) :
    KeyState × (Hotkey → Bool) :=
  handleKeyLoop key { s with state := s.state.set key is_pressed } hotkeyOrder
    (fun _ => false)

end KeyRs

namespace MainRs

/-- The engine state of `src/main.rs` lines 181-188. -/
structure KeyState where
  min_keycode : Nat
  state : List Bool
  hotkeys : List (List Nat)
  toggle_hotkey : Option (List Nat)
  hotkeys_enabled : Bool

/-- Models `KeyState::check_hotkey` of `src/main.rs` lines 251-253. -/
def KeyState.check_hotkey (s : KeyState) (key : Nat) (hotkey : List Nat) : Bool :=
  check_combo s.state key hotkey

/-- Models `KeyState::handle_key` of `src/main.rs` lines 255-274: write
the transition into the press state, evaluate the toggle combo first and
flip the enabled flag when it is active (pushing its own mapped key list),
then, if the engine is now enabled, push the mapped key list of every
active ordinary combo, in table order. -/
def KeyState.handle_key (s0 : KeyState) (key : Nat) (is_pressed : Bool) :
    KeyState × List (List Nat) :=
  let s1 : KeyState := { s0 with state := s0.state.set key is_pressed }
  let step : KeyState × List (List Nat) :=
    match s1.toggle_hotkey with
    | some toggle_hotkey =>
      if s1.check_hotkey key toggle_hotkey then
        ({ s1 with hotkeys_enabled := !s1.hotkeys_enabled },
          [toggle_hotkey.map fun c => c + s1.min_keycode])
      else (s1, [])
    | none => (s1, [])
  if step.1.hotkeys_enabled then
    (step.1, step.2 ++ ((step.1.hotkeys.filter fun hk => step.1.check_hotkey key hk).map
      fun hk => hk.map fun c => c + step.1.min_keycode))
  else (step.1, step.2)

/-- Modelled from the spec: `EV` of the `input_event_codes_hashmap` crate
maps the name KEY to the Linux event type `EV_KEY = 0x01`; the crate is an
external dependency, not part of `src/`. -/
def ev_key : Nat := 1

/-- Models the forwarding decision of `HotkeyListener::listen_keyboard`
(`src/main.rs` lines 328-346) on one decoded record: the record is sent to
the channel as `(code, value != 0)` iff its type equals `ev_key` and its
(signed 32-bit) value is strictly below 2, the comment in the source
naming 2 as autorepeat. -/
def forward_event (type_ : Nat) (code : Nat) (value : Int) : Option (Nat × Bool) :=
  if type_ = ev_key ∧ value < 2 then some (code, decide (value ≠ 0)) else none

end MainRs

/-- A small press state used by the concrete scenarios: 64 entries, only
code 29 (LEFTCTRL) held. -/
def demoState : List Bool := (List.replicate 64 false).set 29 true

/-- A combo table used by the concrete scenarios: Split is LEFTCTRL+G,
the toggle combo is just G, everything else is unconfigured. -/
def demoHotkeys : KeyRs.Hotkey → List Nat := fun hk =>
  match hk with
  | KeyRs.Hotkey.SplitKey => [29, 34]
  | KeyRs.Hotkey.ToggleGlobalHotkeys => [34]
  | _ => []

/-- The key.rs engine in the demo scenario, currently disabled. -/
def demoKeyOff : KeyRs.KeyState := ⟨demoState, demoHotkeys, false⟩

/-- The key.rs engine in the demo scenario, currently enabled. -/
def demoKeyOn : KeyRs.KeyState := ⟨demoState, demoHotkeys, true⟩

/-- The main.rs engine in the demo scenario, currently disabled. -/
def demoMainOff : MainRs.KeyState := ⟨8, demoState, [[29, 34]], some [34], false⟩

/-- The main.rs engine in the demo scenario, currently enabled. -/
def demoMainOn : MainRs.KeyState := ⟨8, demoState, [[29, 34]], some [34], true⟩

theorem getD_set_self {α : Type} :
    ∀ (l : List α) (i : Nat) (a d : α), i < l.length → (l.set i a).getD i d = a := by
  intro l
  induction l with
  | nil => intro i a d h; simp at h
  | cons x xs ih =>
    intro i a d h
    cases i with
    | zero => rfl
    | succ n => exact ih n a d (by simpa using h)

theorem getD_set_ne {α : Type} :
    ∀ (l : List α) (i j : Nat) (a d : α), i ≠ j → (l.set i a).getD j d = l.getD j d := by
  intro l
  induction l with
  | nil => intro i j a d _; rfl
  | cons x xs ih =>
    intro i j a d h
    cases i with
    | zero =>
      cases j with
      | zero => exact absurd rfl h
      | succ m => rfl
    | succ n =>
      cases j with
      | zero => rfl
      | succ m => exact ih n m a d (fun hc => h (by rw [hc]))

theorem getElem?_set_self {α : Type} :
    ∀ (l : List α) (i : Nat) (a : α), i < l.length → (l.set i a)[i]? = some a := by
  intro l
  induction l with
  | nil => intro i a h; simp at h
  | cons x xs ih =>
    intro i a h
    cases i with
    | zero => simp
    | succ n => simpa using ih n a (by simpa using h)

theorem getElem?_set_ne {α : Type} :
    ∀ (l : List α) (i j : Nat) (a : α), i ≠ j → (l.set i a)[j]? = l[j]? := by
  intro l
  induction l with
  | nil => intro i j a _; rfl
  | cons x xs ih =>
    intro i j a h
    cases i with
    | zero =>
      cases j with
      | zero => exact absurd rfl h
      | succ m => simp
    | succ n =>
      cases j with
      | zero => simp
      | succ m => simpa using ih n m a (fun hc => h (by rw [hc]))

theorem handleKeyLoop_state (key : Nat) (l : List KeyRs.Hotkey) :
    ∀ (s : KeyRs.KeyState) (r : KeyRs.Hotkey → Bool),
      (KeyRs.handleKeyLoop key s l r).1.state = s.state := by
  induction l with
  | nil => intro s r; rfl
  | cons hk rest ih =>
    intro s r
    simp only [KeyRs.handleKeyLoop,
      apply_ite (f := fun p : KeyRs.KeyState × (KeyRs.Hotkey → Bool) => p.1.state),
      apply_ite (f := KeyRs.KeyState.state), ih, ite_self]

theorem keyrs_handle_key_state (s : KeyRs.KeyState) (key : Nat) (b : Bool) :
    (s.handle_key key b).1.state = s.state.set key b := by
  unfold KeyRs.KeyState.handle_key
  rw [handleKeyLoop_state]

theorem mainrs_handle_key_state (s : MainRs.KeyState) (key : Nat) (b : Bool) :
    (s.handle_key key b).1.state = s.state.set key b := by
  simp only [MainRs.KeyState.handle_key]
  cases h : s.toggle_hotkey <;>
    simp only [h] <;>
    (try split) <;>
    simp [apply_ite (f := MainRs.KeyState.state)] <;>
    split <;> simp

theorem mapComboGo_ok (combo : String) :
    ∀ l : List String,
      (∀ t ∈ l, (Keymapper.map (strTrim t)).isSome = true) →
      Keymapper.mapComboGo combo l =
        Except.ok (l.filterMap fun t => Keymapper.map (strTrim t)) := by
  intro l
  induction l with
  | nil => intro _; rfl
  | cons t rest ih =>
    intro h
    obtain ⟨c, hc⟩ := Option.isSome_iff_exists.mp (h t (by simp))
    have hrest := ih (fun u hu => h u (by simp [hu]))
    simp only [Keymapper.mapComboGo, hc, hrest, List.filterMap_cons]

theorem mapComboGo_error (combo : String) :
    ∀ (pre : List String) (t : String) (post : List String),
      (∀ u ∈ pre, (Keymapper.map (strTrim u)).isSome = true) →
      Keymapper.map (strTrim t) = none →
      Keymapper.mapComboGo combo (pre ++ t :: post) =
        Except.error (strTrim t, combo) := by
  intro pre
  induction pre with
  | nil => intro t post _ ht; simp [Keymapper.mapComboGo, ht]
  | cons u rest ih =>
    intro t post hpre ht
    obtain ⟨c, hc⟩ := Option.isSome_iff_exists.mp (hpre u (by simp))
    have := ih t post (fun v hv => hpre v (by simp [hv])) ht
    simp only [List.cons_append, Keymapper.mapComboGo, hc, List.append_eq, this]

/-- Counterexample to claim C1, on the key.rs engine: the engine is
Disabled, pressing G (34) completes the toggle combo [34], and G is also a
member of the Split combo [29, 34] whose other member LEFTCTRL (29) is
already held.  `handle_key` flips the state to Enabled and reports the
toggle, but reports NO activation for Split in the same call, because the
enum-map loop evaluates Split before the toggle flips the flag. -/
theorem claim_C1_counterexample :
    demoKeyOff.hotkeys_enabled = false
    ∧ check_combo (demoKeyOff.state.set 34 true) 34
        (demoKeyOff.hotkeys KeyRs.Hotkey.ToggleGlobalHotkeys) = true
    ∧ check_combo (demoKeyOff.state.set 34 true) 34
        (demoKeyOff.hotkeys KeyRs.Hotkey.SplitKey) = true
    ∧ (demoKeyOff.handle_key 34 true).1.hotkeys_enabled = true
    ∧ (demoKeyOff.handle_key 34 true).2 KeyRs.Hotkey.ToggleGlobalHotkeys = true
    ∧ (demoKeyOff.handle_key 34 true).2 KeyRs.Hotkey.SplitKey = false := by
  decide

/-- Claim C1 (amended): the claimed behaviour holds of the main.rs engine,
which evaluates the toggle combo first.  If the engine is Disabled and a
transition both completes the toggle combo and is a member of another
configured combo whose members are all held, then `handle_key` flips the
state to Enabled and also returns that other combo (mapped by
min_keycode) among its activations in the same call.  (On the key.rs
engine this fails; see the counterexample.) -/
theorem claim_C1_amended_main_engine :
    ∀ (s : MainRs.KeyState) (key : Nat) (b : Bool) (th other : List Nat),
      s.hotkeys_enabled = false →
      s.toggle_hotkey = some th →
      check_combo (s.state.set key b) key th = true →
      other ∈ s.hotkeys →
      check_combo (s.state.set key b) key other = true →
      (s.handle_key key b).1.hotkeys_enabled = true ∧
        (other.map fun c => c + s.min_keycode) ∈ (s.handle_key key b).2 := by
  intro s key b th other h1 h2 h3 h4 h5
  have hmem : (other.map fun c => c + s.min_keycode) ∈
      ((s.hotkeys.filter fun hk => check_combo (s.state.set key b) key hk).map
        fun hk => hk.map fun c => c + s.min_keycode) :=
    List.mem_map_of_mem _ (List.mem_filter.mpr ⟨h4, h5⟩)
  simp only [MainRs.KeyState.handle_key, MainRs.KeyState.check_hotkey, h1, h2, h3]
  simp only [if_true, Bool.not_false, List.mem_append]
  exact ⟨trivial, Or.inr hmem⟩

/-- Witness for the amended claim C1 at the demo scenario. -/
theorem claim_C1_amended_witness :
    (demoMainOff.handle_key 34 true).1.hotkeys_enabled = true ∧
      ([29, 34].map fun c => c + demoMainOff.min_keycode) ∈
        (demoMainOff.handle_key 34 true).2 :=
  claim_C1_amended_main_engine demoMainOff 34 true [34] [29, 34]
    (by decide) (by decide) (by decide) (by decide) (by decide)

/-- Claim C2: on both engines, if the engine is Enabled and the transition
activates the toggle combo, the state flips to Disabled and no non-toggle
activation is returned for that transition, whatever other combos the
press state satisfies.  (The key.rs engine returns the all-false map; the
main.rs engine returns only the toggle combo itself.) -/
theorem claim_C2_toggle_off_suppresses :
    (∀ (s : KeyRs.KeyState) (key : Nat) (b : Bool),
      s.hotkeys_enabled = true →
      check_combo (s.state.set key b) key
          (s.hotkeys KeyRs.Hotkey.ToggleGlobalHotkeys) = true →
      (s.handle_key key b).1.hotkeys_enabled = false ∧
        ∀ hk, (s.handle_key key b).2 hk = false)
    ∧ (∀ (s : MainRs.KeyState) (key : Nat) (b : Bool) (th : List Nat),
      s.hotkeys_enabled = true →
      s.toggle_hotkey = some th →
      check_combo (s.state.set key b) key th = true →
      (s.handle_key key b).1.hotkeys_enabled = false ∧
        (s.handle_key key b).2 = [th.map fun c => c + s.min_keycode]) := by
  constructor
  · intro s key b h1 h2
    simp [KeyRs.KeyState.handle_key, KeyRs.hotkeyOrder, KeyRs.handleKeyLoop,
      KeyRs.KeyState.check_hotkey, h1, h2]
  · intro s key b th h1 h2 h3
    simp [MainRs.KeyState.handle_key, MainRs.KeyState.check_hotkey, h1, h2, h3]

/-- Witness for claim C2 at the demo scenario. -/
theorem claim_C2_witness :
    ((demoKeyOn.handle_key 34 true).1.hotkeys_enabled = false ∧
      ∀ hk, (demoKeyOn.handle_key 34 true).2 hk = false) ∧
    ((demoMainOn.handle_key 34 true).1.hotkeys_enabled = false ∧
      (demoMainOn.handle_key 34 true).2 = [[34].map fun c => c + demoMainOn.min_keycode]) :=
  ⟨claim_C2_toggle_off_suppresses.1 demoKeyOn 34 true (by decide) (by decide),
   claim_C2_toggle_off_suppresses.2 demoMainOn 34 true [34] (by decide) (by decide) (by decide)⟩

/-- Claim C3: the press-state vector is allocated as
`vec![false; num_keys]` with `num_keys` the MAXIMUM code of the canonical
table, so its valid indices stop at `num_keys - 1`; the maximal table
entry (the sentinel MAX = 767) is itself a key of the table, and indexing
the vector at it is out of bounds, contradicting the claim. -/
theorem claim_C3_bounds_violation :
    ("MAX", 767) ∈ KEY ∧ num_keys? = some 767 ∧ num_keys = 767 ∧ ¬ (767 < num_keys) := by
  exact ⟨by decide, by decide, by decide, by decide⟩

/-- Claim C4: the activation rule of `check_hotkey`, evaluated against the
press state as updated by the transition (which is how both engines call
it): a combo [a, b] is active on a press of `a` iff `b` is held, active on
a press of `b` iff `a` is held, and never active on a transition for a
code that is not a member, whatever the press state.  The last two
conjuncts tie the two engine methods to the shared rule. -/
theorem claim_C4_activation_rule :
    (∀ (st : List Bool) (a b : Nat), a < st.length → a ≠ b →
      (check_combo (st.set a true) a [a, b] = true ↔ st.getD b false = true))
    ∧ (∀ (st : List Bool) (a b : Nat), b < st.length → a ≠ b →
      (check_combo (st.set b true) b [a, b] = true ↔ st.getD a false = true))
    ∧ (∀ (st : List Bool) (a b x : Nat) (v : Bool), x ≠ a → x ≠ b →
      check_combo (st.set x v) x [a, b] = false)
    ∧ (∀ (s : KeyRs.KeyState) (key : Nat) (hotkey : List Nat),
      s.check_hotkey key hotkey = check_combo s.state key hotkey)
    ∧ (∀ (s : MainRs.KeyState) (key : Nat) (hotkey : List Nat),
      s.check_hotkey key hotkey = check_combo s.state key hotkey) := by
  refine ⟨?_, ?_, ?_, fun _ _ _ => rfl, fun _ _ _ => rfl⟩
  · intro st a b ha hne
    simp [check_combo, getElem?_set_self st a true ha,
      getElem?_set_ne st a b true hne]
  · intro st a b hb hne
    simp [check_combo, hne, getElem?_set_self st b true hb,
      getElem?_set_ne st b a true (Ne.symm hne)]
  · intro st a b x v hxa hxb
    simp [check_combo, Ne.symm hxa, Ne.symm hxb]

/-- Witness for claim C4 at a concrete press state. -/
theorem claim_C4_witness :
    (check_combo ([false, true].set 0 true) 0 [0, 1] = true ↔
      [false, true].getD 1 false = true)
    ∧ check_combo ([false, true].set 3 true) 3 [0, 1] = false :=
  ⟨claim_C4_activation_rule.1 [false, true] 0 1 (by decide) (by decide),
   claim_C4_activation_rule.2.2.1 [false, true] 0 1 3 true (by decide) (by decide)⟩

/-- Claim C5: while the engine is Disabled no activation is produced for
any non-toggle kind (in the step-3 sense of the spec: whenever the
transition leaves the engine Disabled, nothing is produced at all), and
the toggle combo is still evaluated on every transition while Disabled
and, when active, flips the state to Enabled.  Stated for both engines;
for the key.rs engine the no-non-toggle-activation part holds
unconditionally for every transition fed while Disabled. -/
theorem claim_C5_disabled_behavior :
    (∀ (s : KeyRs.KeyState) (key : Nat) (b : Bool),
      s.hotkeys_enabled = false →
      ∀ hk, hk ≠ KeyRs.Hotkey.ToggleGlobalHotkeys → (s.handle_key key b).2 hk = false)
    ∧ (∀ (s : KeyRs.KeyState) (key : Nat) (b : Bool),
      s.hotkeys_enabled = false →
      check_combo (s.state.set key b) key
          (s.hotkeys KeyRs.Hotkey.ToggleGlobalHotkeys) = true →
      (s.handle_key key b).1.hotkeys_enabled = true)
    ∧ (∀ (s : MainRs.KeyState) (key : Nat) (b : Bool) (th : List Nat),
      s.hotkeys_enabled = false →
      s.toggle_hotkey = some th →
      check_combo (s.state.set key b) key th = false →
      (s.handle_key key b).2 = [] ∧ (s.handle_key key b).1.hotkeys_enabled = false)
    ∧ (∀ (s : MainRs.KeyState) (key : Nat) (b : Bool),
      s.hotkeys_enabled = false →
      s.toggle_hotkey = none →
      (s.handle_key key b).2 = [] ∧ (s.handle_key key b).1.hotkeys_enabled = false)
    ∧ (∀ (s : MainRs.KeyState) (key : Nat) (b : Bool) (th : List Nat),
      s.hotkeys_enabled = false →
      s.toggle_hotkey = some th →
      check_combo (s.state.set key b) key th = true →
      (s.handle_key key b).1.hotkeys_enabled = true) := by
  refine ⟨?_, ?_, ?_, ?_, ?_⟩
  · intro s key b h1 hk hne
    cases h2 : check_combo (s.state.set key b) key
        (s.hotkeys KeyRs.Hotkey.ToggleGlobalHotkeys) with
    | false =>
      simp [KeyRs.KeyState.handle_key, KeyRs.hotkeyOrder, KeyRs.handleKeyLoop,
        KeyRs.KeyState.check_hotkey, h1, h2]
    | true =>
      simp [KeyRs.KeyState.handle_key, KeyRs.hotkeyOrder, KeyRs.handleKeyLoop,
        KeyRs.KeyState.check_hotkey, h1, h2, hne]
  · intro s key b h1 h2
    simp [KeyRs.KeyState.handle_key, KeyRs.hotkeyOrder, KeyRs.handleKeyLoop,
      KeyRs.KeyState.check_hotkey, h1, h2]
  · intro s key b th h1 h2 h3
    simp [MainRs.KeyState.handle_key, MainRs.KeyState.check_hotkey, h1, h2, h3]
  · intro s key b h1 h2
    simp [MainRs.KeyState.handle_key, MainRs.KeyState.check_hotkey, h1, h2]
  · intro s key b th h1 h2 h3
    simp [MainRs.KeyState.handle_key, MainRs.KeyState.check_hotkey, h1, h2, h3]

/-- Witness for claim C5 at the demo scenario: a press of A (30) while
Disabled produces nothing on either engine, and a press of G (34), which
activates the toggle combo, flips both engines to Enabled. -/
theorem claim_C5_witness :
    (demoKeyOff.handle_key 30 true).2 KeyRs.Hotkey.SplitKey = false ∧
    (demoKeyOff.handle_key 34 true).1.hotkeys_enabled = true ∧
    ((demoMainOff.handle_key 30 true).2 = [] ∧
      (demoMainOff.handle_key 30 true).1.hotkeys_enabled = false) ∧
    (demoMainOff.handle_key 34 true).1.hotkeys_enabled = true :=
  ⟨claim_C5_disabled_behavior.1 demoKeyOff 30 true (by decide)
      KeyRs.Hotkey.SplitKey (by decide),
   claim_C5_disabled_behavior.2.1 demoKeyOff 34 true (by decide) (by decide),
   claim_C5_disabled_behavior.2.2.1 demoMainOff 30 true [34]
      (by decide) (by decide) (by decide),
   claim_C5_disabled_behavior.2.2.2.2 demoMainOff 34 true [34]
      (by decide) (by decide) (by decide)⟩

/-- Counterexample to claim C6: the record (type = key event, code 30,
value 3) has a nonzero value that is not the autorepeat value 2, so the
claim says it is forwarded as a press; the reader filters with
`value < 2` and does not forward it. -/
theorem claim_C6_counterexample :
    (3 : Int) ≠ 0 ∧ (3 : Int) ≠ 2 ∧
      MainRs.forward_event MainRs.ev_key 30 3 = none := by
  decide

/-- Claim C6 (amended): the reader forwards a record iff its type is the
key-event type and its value is strictly below 2: value 0 is forwarded as
a release, value 1 (and any negative value) as a press, and every value
at least 2 — in particular the autorepeat value 2 — is never forwarded;
records of any other type are never forwarded. -/
theorem claim_C6_amended_filter :
    (∀ (code : Nat) (value : Int), value < 2 →
      MainRs.forward_event MainRs.ev_key code value = some (code, decide (value ≠ 0)))
    ∧ (∀ (t code : Nat) (value : Int), t ≠ MainRs.ev_key →
      MainRs.forward_event t code value = none)
    ∧ (∀ (t code : Nat) (value : Int), 2 ≤ value →
      MainRs.forward_event t code value = none)
    ∧ (∀ code : Nat, MainRs.forward_event MainRs.ev_key code 0 = some (code, false))
    ∧ (∀ code : Nat, MainRs.forward_event MainRs.ev_key code 1 = some (code, true)) := by
  refine ⟨?_, ?_, ?_, ?_, ?_⟩
  · intro code value h
    simp [MainRs.forward_event, h]
  · intro t code value h
    simp [MainRs.forward_event, h]
  · intro t code value h
    simp [MainRs.forward_event, not_lt.mpr h]
  · intro code
    simp [MainRs.forward_event]
  · intro code
    simp [MainRs.forward_event]

/-- Witness for the amended claim C6 at concrete records. -/
theorem claim_C6_amended_witness :
    MainRs.forward_event MainRs.ev_key 34 1 = some (34, decide ((1 : Int) ≠ 0)) ∧
    MainRs.forward_event 2 34 1 = none ∧
    MainRs.forward_event MainRs.ev_key 34 2 = none :=
  ⟨claim_C6_amended_filter.1 34 1 (by decide),
   claim_C6_amended_filter.2.1 2 34 1 (by decide),
   claim_C6_amended_filter.2.2.1 MainRs.ev_key 34 2 (by decide)⟩

/-- Claim C7: `map_combo` splits on commas, trims each token, resolves the
tokens independently in order; if every token resolves it returns the
codes in token order, otherwise it fails with the first unresolved
(trimmed) token and the original combo text and produces no partial
combo.  Concretely, "Control, G" yields [29, 34] (left-control then G)
and "Shift, , Alt" fails on the empty middle token. -/
theorem claim_C7_map_combo :
    (∀ combo : String,
      (∀ t ∈ splitComma combo, (Keymapper.map (strTrim t)).isSome = true) →
      Keymapper.map_combo combo =
        Except.ok ((splitComma combo).filterMap fun t => Keymapper.map (strTrim t)))
    ∧ (∀ (combo : String) (pre : List String) (t : String) (post : List String),
      splitComma combo = pre ++ t :: post →
      (∀ u ∈ pre, (Keymapper.map (strTrim u)).isSome = true) →
      Keymapper.map (strTrim t) = none →
      Keymapper.map_combo combo = Except.error (strTrim t, combo))
    ∧ Keymapper.map_combo "Control, G" = Except.ok [29, 34]
    ∧ Keymapper.map_combo "Shift, , Alt" = Except.error ("", "Shift, , Alt") := by
  refine ⟨?_, ?_, by rfl, by rfl⟩
  · intro combo h
    exact mapComboGo_ok combo (splitComma combo) h
  · intro combo pre t post hsplit hpre ht
    unfold Keymapper.map_combo
    rw [hsplit]
    exact mapComboGo_error combo pre t post hpre ht

/-- Witness for claim C7: the all-resolved case at "G" and the fail-fast
case at "Shift, , Alt". -/
theorem claim_C7_witness :
    Keymapper.map_combo "G" =
      Except.ok ((splitComma "G").filterMap fun t => Keymapper.map (strTrim t)) ∧
    Keymapper.map_combo "Shift, , Alt" = Except.error (strTrim " ", "Shift, , Alt") :=
  ⟨claim_C7_map_combo.1 "G" (by decide),
   claim_C7_map_combo.2.1 "Shift, , Alt" ["Shift"] " " [" Alt"]
     (by decide) (by decide) (by decide)⟩

/-- Claim C8: two-tier resolution.  If the name is a key of the static
alias table, `map` returns the canonical-table entry of the alias target;
otherwise it returns the canonical-table entry of the upper-cased name
(None when absent).  "NumPad6" resolves through its alias to KP6 (77) and
"G", absent from the alias table, resolves through the uppercase fallback
to 34. -/
theorem claim_C8_two_tier_resolution :
    (∀ (name target : String), Keymapper.key_map.lookup name = some target →
      Keymapper.map name = KEY.lookup target)
    ∧ (∀ name : String, Keymapper.key_map.lookup name = none →
      Keymapper.map name = KEY.lookup (strToUpper name))
    ∧ Keymapper.map "NumPad6" = some 77
    ∧ Keymapper.key_map.lookup "G" = none ∧ Keymapper.map "G" = some 34 := by
  refine ⟨?_, ?_, by decide, by decide, by decide⟩
  · intro name target h
    simp [Keymapper.map, h]
  · intro name h
    simp [Keymapper.map, h]

/-- Witness for claim C8: an alias-table hit and an uppercase-fallback
lookup. -/
theorem claim_C8_witness :
    Keymapper.map "Control" = KEY.lookup "LEFTCTRL" ∧
    Keymapper.map "Q" = KEY.lookup (strToUpper "Q") :=
  ⟨claim_C8_two_tier_resolution.1 "Control" "LEFTCTRL" (by decide),
   claim_C8_two_tier_resolution.2.1 "Q" (by decide)⟩

/-- Claim C9: on both engines, for every in-bounds code c, feeding a press
of c and then a release of c leaves the press state false at c and
unchanged at every other index. -/
theorem claim_C9_no_stuck_key :
    (∀ (s : KeyRs.KeyState) (c : Nat), c < s.state.length →
      ((s.handle_key c true).1.handle_key c false).1.state.getD c false = false ∧
        ∀ x, x ≠ c →
          ((s.handle_key c true).1.handle_key c false).1.state.getD x false =
            s.state.getD x false)
    ∧ (∀ (s : MainRs.KeyState) (c : Nat), c < s.state.length →
      ((s.handle_key c true).1.handle_key c false).1.state.getD c false = false ∧
        ∀ x, x ≠ c →
          ((s.handle_key c true).1.handle_key c false).1.state.getD x false =
            s.state.getD x false) := by
  constructor
  · intro s c hlt
    have h2 : ((s.handle_key c true).1.handle_key c false).1.state =
        s.state.set c false := by
      rw [keyrs_handle_key_state, keyrs_handle_key_state, List.set_set]
    refine ⟨?_, ?_⟩
    · rw [h2]
      exact getD_set_self s.state c false false hlt
    · intro x hx
      rw [h2]
      exact getD_set_ne s.state c x false false (Ne.symm hx)
  · intro s c hlt
    have h2 : ((s.handle_key c true).1.handle_key c false).1.state =
        s.state.set c false := by
      rw [mainrs_handle_key_state, mainrs_handle_key_state, List.set_set]
    refine ⟨?_, ?_⟩
    · rw [h2]
      exact getD_set_self s.state c false false hlt
    · intro x hx
      rw [h2]
      exact getD_set_ne s.state c x false false (Ne.symm hx)

/-- Witness for claim C9 at the demo scenario. -/
theorem claim_C9_witness :
    ((demoKeyOn.handle_key 34 true).1.handle_key 34 false).1.state.getD 34 false = false ∧
    ((demoMainOn.handle_key 34 true).1.handle_key 34 false).1.state.getD 29 false =
      demoMainOn.state.getD 29 false :=
  ⟨(claim_C9_no_stuck_key.1 demoKeyOn 34 (by decide)).1,
   (claim_C9_no_stuck_key.2 demoMainOn 34 (by decide)).2 29 (by decide)⟩

/-- Claim C10: alias lookup is exact-match on the configured spelling
while the fallback upper-cases: "Shift" resolves through its alias to
LEFTSHIFT (42), but "shift" is not an alias key, its uppercase form
"SHIFT" is not a canonical key name, and so it resolves to None. -/
theorem claim_C10_alias_exact_fallback_uppercase :
    Keymapper.map "Shift" = some 42
    ∧ Keymapper.map "shift" = none
    ∧ Keymapper.key_map.lookup "shift" = none
    ∧ strToUpper "shift" = "SHIFT"
    ∧ KEY.lookup "SHIFT" = none := by
  exact ⟨by decide, by decide, by decide, by decide, by decide⟩

end LiveSplitHotkeys
